import Mathlib

/-!
Verification of `linear_regression.py` against its specification.

The Python source implements descriptive statistics (mean, sample standard
deviation, Pearson correlation), simple linear regression, ordinary least
squares via the normal equations, and batch gradient descent.

Shallow embedding conventions:
* Python floats are idealised as exact numbers: the statistics layer (which
  uses `math.sqrt`) is embedded over `ℝ`, the matrix layer (OLS and gradient
  descent, which are square-root free) over `ℚ`.
* Python code that can raise at runtime is embedded as `Except PyError`;
  `PyError.zeroDivision` models `ZeroDivisionError` and `PyError.indexError`
  models `IndexError`.  The `print` on the weak-correlation path of
  `simple_linear_regression` is a dropped side effect; the function's return
  value is modelled exactly.
* The numpy primitives used by the source (`np.transpose`, `np.dot`,
  `np.linalg.matmul`, `np.linalg.det`, `np.linalg.inv`) are modelled as exact
  list-based linear algebra: transpose, dot products, Laplace-expansion
  determinant, and the adjugate formula for the inverse.
-/

namespace LinReg

/-- Runtime errors the Python functions can raise. -/
inductive PyError where
  | zeroDivision
  | indexError
deriving DecidableEq

/-! Linear algebra primitives: model of the numpy backend, over ℚ. -/

/-- Elementwise vector subtraction (numpy `u - v`). -/
def vecSub (u v : List ℚ) : List ℚ := List.zipWith (fun a b => a - b) u v

/-- Scalar times vector (numpy `c * v`). -/
def scalarMul (c : ℚ) (v : List ℚ) : List ℚ := v.map (fun x => c * x)

/-- Vector divided by scalar (numpy `v / c`). -/
def scalarDiv (v : List ℚ) (c : ℚ) : List ℚ := v.map (fun x => x / c)

/-- Dot product of two vectors. -/
def dotProd (u v : List ℚ) : ℚ := (List.zipWith (fun a b => a * b) u v).sum

/-- Matrix transpose (numpy `np.transpose`), rows-of-lists representation. -/
def transpose (A : List (List ℚ)) : List (List ℚ) :=
  (List.range A.headI.length).map (fun j => A.map (fun r => r.getD j 0))

/-- Matrix-vector product (numpy `np.dot` / `np.linalg.matmul` on a vector). -/
def matvec (A : List (List ℚ)) (v : List ℚ) : List ℚ := A.map (fun r => dotProd r v)

/-- Matrix-matrix product (numpy `np.dot`). -/
def matmul (A B : List (List ℚ)) : List (List ℚ) :=
  A.map (fun r => (transpose B).map (fun c => dotProd r c))

/-- Laplace expansion of the determinant along the first row, with fuel equal
to the number of rows. -/
def detAux : ℕ → List (List ℚ) → ℚ
  | _, [] => 1
  | 0, _ :: _ => 0
  | fuel + 1, r :: rest =>
    ((List.range r.length).map
      (fun j => (-1 : ℚ) ^ j * r.getD j 0 *
        detAux fuel (rest.map (fun row => row.eraseIdx j)))).sum

/-- Determinant of a square matrix (model of `np.linalg.det`, exact). -/
def det (A : List (List ℚ)) : ℚ := detAux A.length A

/-- Matrix inverse by the adjugate formula: entry `(i, j)` is the `(j, i)`
cofactor divided by the determinant (model of `np.linalg.inv`, exact). -/
def inverse (A : List (List ℚ)) : List (List ℚ) :=
  (List.range A.length).map (fun i =>
    (List.range A.length).map (fun j =>
      (-1 : ℚ) ^ (i + j) *
        det ((A.eraseIdx j).map (fun row => row.eraseIdx i)) / det A))

/-- The Python `ordinary_least_squares` returns either the bare scalar `0`
(the singular branch) or an array of coefficients; the two shapes are
distinct constructors. -/
inductive OlsResult where
  | scalar (x : ℚ)
  | vector (v : List ℚ)
deriving DecidableEq

/-- Embedding of `ordinary_least_squares`: compute `Xᵗ`, `trxind = XᵗX`; if
`det trxind == 0` return the bare scalar `0`; otherwise return
`((trxind⁻¹)Xᵗ)y`.  Locals follow the source (`transpose`, `trxind`,
`inverse`, `invxtr`), renamed only where they would shadow the global
functions. -/
def ordinary_least_squares (X : List (List ℚ)) (y : List ℚ) : OlsResult :=
  let transposed := transpose X
  let trxind := matmul transposed X
  if det trxind = 0 then .scalar 0
  else
    let trxind_inv := inverse trxind
    let invxtr := matmul trxind_inv transposed
    .vector (matvec invxtr y)

/-- Body of the `gradient_descent` loop:
`y_estimate = X·θ`, `dtheta = Xᵗ(y - y_estimate) / items_per_variable`,
`θ ← θ - learning_rate * dtheta` (with `items_per_variable` the row count
of `X`). -/
def gd_update (X : List (List ℚ)) (y : List ℚ) (learning_rate : ℚ)
    (theta : List ℚ) : List ℚ :=
  let y_estimate := matvec X theta
  let dtheta := scalarDiv (matvec (transpose X) (vecSub y y_estimate)) (X.length : ℚ)
  vecSub theta (scalarMul learning_rate dtheta)

/-- Embedding of `gradient_descent`: start from the zero vector of length
`len(X[0])` and apply the loop body `step_count` times.  The source performs
no validation of `learning_rate` and no dimension checks. -/
def gradient_descent (X : List (List ℚ)) (y : List ℚ) (learning_rate : ℚ)
    (step_count : ℕ) : List ℚ :=
  (gd_update X y learning_rate)^[step_count] (List.replicate X.headI.length 0)

/-- Modelled from the spec (section 4.4), for comparison with the source:
initialise θ as the zero vector of length p, repeat exactly T times
`ŷ = Xθ`, `g = Xᵗ(y − ŷ)/n`, `θ ← θ − α·g`, and return the final θ. -/
def gradientDescentSpec (X : List (List ℚ)) (y : List ℚ) (α : ℚ) : ℕ → List ℚ
  | 0 => List.replicate X.headI.length 0
  | T + 1 =>
    let θ := gradientDescentSpec X y α T
    let yhat := matvec X θ
    let g := scalarDiv (matvec (transpose X) (vecSub y yhat)) (X.length : ℚ)
    vecSub θ (scalarMul α g)

/-- Full-rank 3×2 design matrix (the rows used by the source's `main` for the
OLS demonstration). -/
def X0 : List (List ℚ) := [[1, -1], [1, 1], [1, 2]]

/-- Known coefficient vector β* for the round trip. -/
def beta0 : List ℚ := [1, 2]

/-- Target vector `y0 = X0 · beta0`, exactly. -/
def y0 : List ℚ := [-1, 3, 5]

/-! Descriptive statistics: embedding over ℝ, with `math.sqrt` as
`Real.sqrt`. -/

/-- Embedding of `mean_calculator`: sum the data in a loop and divide by the
length; Python raises `ZeroDivisionError` on an empty list. -/
noncomputable def mean_calculator (var_data : List ℝ) : Except PyError ℝ :=
  if var_data.length = 0 then .error .zeroDivision
  else .ok (List.foldl (fun mean val => mean + val) 0 var_data / var_data.length)

/-- Embedding of `sample_standard_deviation`: `sample_size = n - 1`; the loop
accumulates `(x - mean)² / sample_size` and the result is its square root.
Python divides inside the loop, so it raises `ZeroDivisionError` exactly when
the list has length 1 (for the empty list the loop body never runs and the
function returns `sqrt 0 = 0`). -/
noncomputable def sample_standard_deviation (var_sample_data : List ℝ) (mean : ℝ) :
    Except PyError ℝ :=
  if var_sample_data.length = 1 then .error .zeroDivision
  else
    .ok (Real.sqrt (List.foldl
      (fun stdev var_data =>
        stdev + (var_data - mean) ^ 2 / ((var_sample_data.length : ℝ) - 1))
      0 var_sample_data))

/-- Embedding of `pearsons_correlation_coefficient`: one loop over
`range(len(xs))` accumulating the three sums; accessing `ys[i]` raises
`IndexError` exactly when `ys` is shorter than `xs`; the final division
raises `ZeroDivisionError` when the denominator `sqrt(bl * br)` is zero. -/
noncomputable def pearsons_correlation_coefficient (independent_var_data dependent_var_data : List ℝ)
    (independent_mean dependent_mean : ℝ) : Except PyError ℝ :=
  if dependent_var_data.length < independent_var_data.length then .error .indexError
  else
    let top_sum := List.foldl
      (fun acc i => acc + (independent_var_data.getD i 0 - independent_mean) *
        (dependent_var_data.getD i 0 - dependent_mean)) 0
      (List.range independent_var_data.length)
    let bottom_left_sum := List.foldl
      (fun acc i => acc + (independent_var_data.getD i 0 - independent_mean) ^ 2) 0
      (List.range independent_var_data.length)
    let bottom_right_sum := List.foldl
      (fun acc i => acc + (dependent_var_data.getD i 0 - dependent_mean) ^ 2) 0
      (List.range independent_var_data.length)
    let bottom_sum := Real.sqrt (bottom_left_sum * bottom_right_sum)
    if bottom_sum = 0 then .error .zeroDivision
    else .ok (top_sum / bottom_sum)

/-- Embedding of `simple_linear_regression`: compute both means, then `r`;
if `abs(r) < 0.5` print a message (dropped side effect) and return the tuple
`(0, 0)`; otherwise compute both standard deviations,
`m = r * (y_stdev / x_stdev)` and `b = y_mean - m * x_mean`, and return
`(m, b)`.  Each called function propagates its runtime errors. -/
noncomputable def simple_linear_regression (independent_var_data dependent_var_data : List ℝ) :
    Except PyError (ℝ × ℝ) :=
  match mean_calculator independent_var_data with
  | .error e => .error e
  | .ok x_mean =>
  match mean_calculator dependent_var_data with
  | .error e => .error e
  | .ok y_mean =>
  match pearsons_correlation_coefficient independent_var_data dependent_var_data
      x_mean y_mean with
  | .error e => .error e
  | .ok r =>
  if |r| < 0.5 then .ok (0, 0)
  else
  match sample_standard_deviation independent_var_data x_mean with
  | .error e => .error e
  | .ok x_stdev =>
  match sample_standard_deviation dependent_var_data y_mean with
  | .error e => .error e
  | .ok y_stdev =>
  if x_stdev = 0 then .error .zeroDivision
  else
    let m := r * (y_stdev / x_stdev)
    let b := y_mean - m * x_mean
    .ok (m, b)

/-! Mathematical shorthands used to state the claims (the spec's formulas). -/

/-- Arithmetic mean, as the spec writes it. -/
noncomputable def meanSpec (l : List ℝ) : ℝ := l.sum / l.length

/-- `Σᵢ (xsᵢ − mx)(ysᵢ − my)`, indexed over the length of `xs` (for the
equal-length samples the claims quantify over, this is the full sum over the
paired sample). -/
noncomputable def sumProdDev (xs ys : List ℝ) (mx my : ℝ) : ℝ :=
  ((List.range xs.length).map (fun i => (xs.getD i 0 - mx) * (ys.getD i 0 - my))).sum

/-- `Σ_{i < n} (lᵢ − m)²`. -/
noncomputable def sumSqDev (n : ℕ) (l : List ℝ) (m : ℝ) : ℝ :=
  ((List.range n).map (fun i => (l.getD i 0 - m) ^ 2)).sum

/-- Pearson's correlation coefficient as the spec writes it:
`Σ(xᵢ−x̄)(yᵢ−ȳ) / √(Σ(xᵢ−x̄)² · Σ(yᵢ−ȳ)²)`. -/
noncomputable def rSpec (xs ys : List ℝ) : ℝ :=
  sumProdDev xs ys (meanSpec xs) (meanSpec ys) /
    Real.sqrt (sumSqDev xs.length xs (meanSpec xs) * sumSqDev xs.length ys (meanSpec ys))

/-- Sample standard deviation as the spec writes it:
`√(Σ(xᵢ−mean)² / (n−1))`. -/
noncomputable def stdevSpec (l : List ℝ) (m : ℝ) : ℝ :=
  Real.sqrt (sumSqDev l.length l m / ((l.length : ℝ) - 1))

/-! Helper lemmas about folds and sums. -/

theorem foldl_add_sum {α : Type} (f : α → ℝ) (l : List α) (c : ℝ) :
    List.foldl (fun acc x => acc + f x) c l = c + (l.map f).sum := by
  induction l generalizing c with
  | nil => simp
  | cons x xs ih =>
    rw [List.foldl_cons, ih, List.map_cons, List.sum_cons]
    ring

theorem sum_map_div (l : List ℝ) (f : ℝ → ℝ) (c : ℝ) :
    (l.map (fun x => f x / c)).sum = (l.map f).sum / c := by
  induction l with
  | nil => simp
  | cons x xs ih => simp [List.sum_cons, ih, add_div]

theorem map_range_getD (l : List ℝ) (g : ℝ → ℝ) :
    (List.range l.length).map (fun i => g (l.getD i 0)) = l.map g := by
  induction l with
  | nil => simp
  | cons x xs ih =>
    rw [List.length_cons, List.range_succ_eq_map, List.map_cons, List.map_map]
    simp only [List.getD_cons_zero, List.getD_cons_succ, Function.comp_def]
    rw [ih, List.map_cons]

theorem getD_take (l : List ℝ) : ∀ (n i : ℕ), i < n → (l.take n).getD i 0 = l.getD i 0 := by
  induction l with
  | nil => intro n i _; simp
  | cons x xs ih =>
    intro n i h
    cases n with
    | zero => omega
    | succ n =>
      cases i with
      | zero => simp
      | succ i => simpa using ih n i (by omega)

/-! Helper lemmas connecting the embedded statistics to the spec formulas. -/

theorem mean_ok (l : List ℝ) (h : l ≠ []) : mean_calculator l = .ok (meanSpec l) := by
  have hlen : ¬ l.length = 0 := by simpa using h
  rw [mean_calculator, if_neg hlen, foldl_add_sum (fun x => x)]
  simp [meanSpec]

theorem stdev_ok (l : List ℝ) (m : ℝ) (h : ¬ l.length = 1) :
    sample_standard_deviation l m = .ok (stdevSpec l m) := by
  rw [sample_standard_deviation, if_neg h,
    foldl_add_sum (fun v => (v - m) ^ 2 / ((l.length : ℝ) - 1)), zero_add,
    sum_map_div l (fun v => (v - m) ^ 2) ((l.length : ℝ) - 1)]
  rw [stdevSpec, sumSqDev, map_range_getD l (fun x => (x - m) ^ 2)]

theorem corr_eq (xs ys : List ℝ) (mx my : ℝ) (h : ¬ ys.length < xs.length) :
    pearsons_correlation_coefficient xs ys mx my =
      if Real.sqrt (sumSqDev xs.length xs mx * sumSqDev xs.length ys my) = 0
      then .error .zeroDivision
      else .ok (sumProdDev xs ys mx my /
        Real.sqrt (sumSqDev xs.length xs mx * sumSqDev xs.length ys my)) := by
  rw [pearsons_correlation_coefficient, if_neg h]
  simp only
  rw [foldl_add_sum (fun i => (xs.getD i 0 - mx) * (ys.getD i 0 - my)),
    foldl_add_sum (fun i => (xs.getD i 0 - mx) ^ 2),
    foldl_add_sum (fun i => (ys.getD i 0 - my) ^ 2)]
  simp only [zero_add]
  rfl

theorem corr_ok (xs ys : List ℝ) (mx my : ℝ) (h : ¬ ys.length < xs.length)
    (hb : Real.sqrt (sumSqDev xs.length xs mx * sumSqDev xs.length ys my) ≠ 0) :
    pearsons_correlation_coefficient xs ys mx my =
      .ok (sumProdDev xs ys mx my /
        Real.sqrt (sumSqDev xs.length xs mx * sumSqDev xs.length ys my)) := by
  rw [corr_eq xs ys mx my h, if_neg hb]

theorem sumSqDev_nonneg (n : ℕ) (l : List ℝ) (m : ℝ) : 0 ≤ sumSqDev n l m := by
  refine List.sum_nonneg ?_
  intro x hx
  simp only [List.mem_map] at hx
  obtain ⟨i, _, rfl⟩ := hx
  positivity

/-! Helper lemmas for the concrete gradient-descent run on `X0`, `y0`. -/

theorem gd_update_X0 (a b lr : ℚ) :
    gd_update X0 y0 lr [a, b] =
      [a - lr * ((7 - 3*a - 2*b)/3), b - lr * ((14 - 2*a - 6*b)/3)] := by
  simp only [gd_update, X0, y0, matvec, transpose, dotProd, vecSub, scalarMul,
    scalarDiv, List.range_succ, List.range_zero, List.map_cons, List.map_nil,
    List.zipWith_cons_cons, List.zipWith_nil_right, List.zipWith_nil_left,
    List.sum_cons, List.sum_nil, List.headI, List.length_cons, List.length_nil,
    List.getD_cons_zero, List.getD_cons_succ, List.nil_append, List.cons_append,
    List.map_append]
  refine List.cons_eq_cons.mpr ⟨by push_cast; ring,
    List.cons_eq_cons.mpr ⟨by push_cast; ring, rfl⟩⟩

theorem gd_step_dist (a b lr : ℚ) (hlr : 0 < lr) :
    (a - 1)^2 + (b - 2)^2 ≤
      (a - lr * ((7 - 3*a - 2*b)/3) - 1)^2 + (b - lr * ((14 - 2*a - 6*b)/3) - 2)^2 := by
  have hq : 0 ≤ 3*(a-1)^2 + 4*(a-1)*(b-2) + 6*(b-2)^2 := by
    nlinarith [sq_nonneg (a - 1 + (b - 2)), sq_nonneg (a - 1), sq_nonneg (b - 2)]
  nlinarith [mul_nonneg hlr.le hq, sq_nonneg (lr * (3*(a-1) + 2*(b-2))),
    sq_nonneg (lr * (2*(a-1) + 6*(b-2)))]

theorem gd_X0_lower (lr : ℚ) (hlr : 0 < lr) (T : ℕ) :
    ∃ a b, gradient_descent X0 y0 lr T = [a, b] ∧
      5 ≤ (a - 1)^2 + (b - 2)^2 := by
  induction T with
  | zero =>
    refine ⟨0, 0, ?_, by norm_num⟩
    simp [gradient_descent, X0]
  | succ T ih =>
    obtain ⟨a, b, hgd, hge⟩ := ih
    refine ⟨a - lr * ((7 - 3*a - 2*b)/3), b - lr * ((14 - 2*a - 6*b)/3), ?_, ?_⟩
    · rw [gradient_descent, Function.iterate_succ_apply', ← gradient_descent, hgd,
        gd_update_X0]
    · exact le_trans hge (gd_step_dist a b lr hlr)

theorem gd_eq_spec (X : List (List ℚ)) (y : List ℚ) (α : ℚ) (T : ℕ) :
    gradient_descent X y α T = gradientDescentSpec X y α T := by
  induction T with
  | zero => rfl
  | succ T ih =>
    rw [gradient_descent, Function.iterate_succ_apply', ← gradient_descent, ih]
    rfl

/-! Claim C3: OLS on a rank-deficient Gram matrix. -/

/-- C3 counterexample: on the design matrix `[[1,1],[2,2],[3,3]]` with two
identical columns (so `det(XᵗX) = 0`), `ordinary_least_squares` does not fail
with a `SingularMatrixError`: it returns the bare scalar `0`. -/
theorem ols_identical_columns_scalar_zero :
    ordinary_least_squares [[1, 1], [2, 2], [3, 3]] [1, 2, 3] = .scalar 0 := by
  norm_num [ordinary_least_squares, matmul, matvec, transpose, dotProd,
    det, detAux, List.range_succ]

/-- C3 amended: for every design matrix `X` whose Gram matrix `XᵗX` has
determinant exactly zero (there is no numerical tolerance), and every target
`y`, `ordinary_least_squares` returns the ambiguous bare scalar `0` instead
of failing with a `SingularMatrixError`. -/
theorem ols_singular_returns_scalar_zero (X : List (List ℚ)) (y : List ℚ)
    (h : det (matmul (transpose X) X) = 0) :
    ordinary_least_squares X y = .scalar 0 := by
  rw [ordinary_least_squares]
  simp only [h, if_pos]

/-- Witness for `ols_singular_returns_scalar_zero` at a concrete singular
input. -/
theorem ols_singular_returns_scalar_zero_witness :
    det (matmul (transpose [[1, 1], [1, 1]]) [[1, 1], [1, 1]]) = 0 ∧
    ordinary_least_squares [[1, 1], [1, 1]] [1, 1] = .scalar 0 := by
  have h : det (matmul (transpose [[1, 1], [1, 1]]) [[1, 1], [1, 1]]) = 0 := by
    norm_num [matmul, transpose, dotProd, det, detAux, List.range_succ]
  exact ⟨h, ols_singular_returns_scalar_zero [[1, 1], [1, 1]] [1, 1] h⟩

/-! Claim C5: OLS computes the normal-equation solution and recovers β*. -/

/-- C5: whenever `det(XᵗX) ≠ 0`, `ordinary_least_squares` returns
`((XᵗX)⁻¹Xᵗ)y`; and on the full-rank round trip `X0` (3×2), `y0 = X0·beta0`
exactly, it recovers `beta0 = [1, 2]` exactly (hence within 1e-6). -/
theorem ols_normal_equation_solution :
    (∀ (X : List (List ℚ)) (y : List ℚ), det (matmul (transpose X) X) ≠ 0 →
      ordinary_least_squares X y =
        .vector (matvec (matmul (inverse (matmul (transpose X) X)) (transpose X)) y)) ∧
    matvec X0 beta0 = y0 ∧
    ordinary_least_squares X0 y0 = .vector beta0 := by
  refine ⟨?_, ?_, ?_⟩
  · intro X y h
    rw [ordinary_least_squares]
    simp only [h, if_neg, if_false]
  · norm_num [matvec, dotProd, X0, beta0, y0]
  · norm_num [ordinary_least_squares, X0, y0, beta0, matmul, matvec, transpose,
      dotProd, inverse, det, detAux, List.range_succ, List.eraseIdx]

/-- Witness for `ols_normal_equation_solution` at the concrete full-rank
input. -/
theorem ols_normal_equation_solution_witness :
    det (matmul (transpose X0) X0) ≠ 0 ∧
    ordinary_least_squares X0 y0 =
      .vector (matvec (matmul (inverse (matmul (transpose X0) X0)) (transpose X0)) y0) := by
  have h : det (matmul (transpose X0) X0) = 14 := by
    norm_num [matmul, transpose, dotProd, det, detAux, X0, List.range_succ]
  refine ⟨by rw [h]; norm_num, ?_⟩
  exact ols_normal_equation_solution.1 X0 y0 (by rw [h]; norm_num)

/-! Claim C4: gradient descent follows the documented update rule. -/

/-- C4: for every `X`, `y`, learning rate `α > 0`, and `T`,
`gradient_descent` computes exactly what the spec describes: θ starts as the
zero vector of length `p = len(X[0])` and is updated `T` times by
`θ ← θ − α·Xᵗ(y − Xθ)/n`; with `T = 0` it returns the zero vector of length
`p` unchanged, regardless of `X`, `y`, `α`. -/
theorem gradient_descent_follows_spec (X : List (List ℚ)) (y : List ℚ) (α : ℚ)
    (T : ℕ) (hα : 0 < α) :
    gradient_descent X y α T = gradientDescentSpec X y α T ∧
    gradient_descent X y α 0 = List.replicate X.headI.length 0 ∧
    (gradient_descent X y α 0).length = X.headI.length := by
  refine ⟨gd_eq_spec X y α T, rfl, ?_⟩
  simp [gradient_descent]

/-- Witness for `gradient_descent_follows_spec` at a concrete input. -/
theorem gradient_descent_follows_spec_witness :
    0 < (1/100 : ℚ) ∧
    gradient_descent X0 y0 (1/100) 7 = gradientDescentSpec X0 y0 (1/100) 7 ∧
    gradient_descent X0 y0 (1/100) 0 = List.replicate X0.headI.length 0 := by
  have h := gradient_descent_follows_spec X0 y0 (1/100) 7 (by norm_num)
  exact ⟨by norm_num, h.1, h.2.1⟩

/-! Claim C2: convergence of gradient descent on the OLS round-trip data. -/

/-- C2: the update rule of `gradient_descent` has the wrong sign, so on the
round-trip data (`X0` full rank, `y0 = X0·beta0` exactly) its iterate never
approaches `beta0 = (1, 2)`: for every learning rate `α > 0` and every
iteration count `T`, the squared distance of θ_T from β* stays at least `5`
(its initial value) — in particular θ_T is never within tolerance `1e-2` of
β*.  The code computes `dtheta = Xᵗ(y − ŷ)/n`, which is the negative of the
cost gradient `∂J/∂θ = Xᵗ(ŷ − y)/n`, and then subtracts it, ascending the
cost. -/
theorem gradient_descent_diverges :
    matvec X0 beta0 = y0 ∧
    ∀ (α : ℚ), 0 < α → ∀ (T : ℕ),
      5 ≤ ((gradient_descent X0 y0 α T).getD 0 0 - 1)^2 +
          ((gradient_descent X0 y0 α T).getD 1 0 - 2)^2 := by
  refine ⟨by norm_num [matvec, dotProd, X0, beta0, y0], ?_⟩
  intro α hα T
  obtain ⟨a, b, hgd, hge⟩ := gd_X0_lower α hα T
  rw [hgd]
  simpa using hge

/-- Witness for `gradient_descent_diverges` at `α = 1/100`, `T = 16` (the
step count used by the source's `main`). -/
theorem gradient_descent_diverges_witness :
    0 < (1/100 : ℚ) ∧
    5 ≤ ((gradient_descent X0 y0 (1/100) 16).getD 0 0 - 1)^2 +
        ((gradient_descent X0 y0 (1/100) 16).getD 1 0 - 2)^2 := by
  exact ⟨by norm_num, gradient_descent_diverges.2 (1/100) (by norm_num) 16⟩

/-! Claim C8: gradient descent with a non-positive learning rate. -/

/-- C8 counterexample: called with learning rate `-1`, `gradient_descent`
does not fail with an `InvalidLearningRateError` (no such check exists): it
silently runs the iteration and returns `[1]`, having taken a step scaled by
the negative rate. -/
theorem gradient_descent_negative_rate_runs :
    gradient_descent [[1], [1]] [1, 1] (-1) 1 = [1] := by
  norm_num [gradient_descent, gd_update, matvec, transpose, dotProd, vecSub,
    scalarMul, scalarDiv, List.range_succ, List.replicate]

/-- C8 amended: `gradient_descent` performs no validation of the learning
rate: for every `α ≤ 0` it silently runs the update with that step; on
`X = [[1],[1]]`, `y = [1,1]`, one iteration returns `[-α]` (the update was
applied, scaled by the non-positive rate). -/
theorem gradient_descent_no_rate_check (α : ℚ) (hα : α ≤ 0) :
    gradient_descent [[1], [1]] [1, 1] α 1 = [-α] := by
  simp only [gradient_descent, gd_update, matvec, transpose, dotProd, vecSub,
    scalarMul, scalarDiv, List.range_succ, List.range_zero, List.map_cons,
    List.map_nil, List.zipWith_cons_cons, List.zipWith_nil_right,
    List.zipWith_nil_left, List.sum_cons, List.sum_nil, List.headI,
    List.length_cons, List.length_nil, List.getD_cons_zero, List.getD_cons_succ,
    List.nil_append, List.cons_append, List.map_append, List.replicate,
    Function.iterate_one]
  refine List.cons_eq_cons.mpr ⟨by push_cast; ring, rfl⟩

/-- Witness for `gradient_descent_no_rate_check` at `α = -2`. -/
theorem gradient_descent_no_rate_check_witness :
    (-2 : ℚ) ≤ 0 ∧ gradient_descent [[1], [1]] [1, 1] (-2) 1 = [-(-2)] := by
  exact ⟨by norm_num, gradient_descent_no_rate_check (-2) (by norm_num)⟩

/-! Claim C6: sample standard deviation on short samples. -/

/-- C6 counterexample: on the empty sample (length 0 < 2),
`sample_standard_deviation` does not fail with an
`InsufficientSampleSizeError`: it succeeds and returns `0` (the loop body
never runs and `sqrt 0 = 0`). -/
theorem sample_stdev_empty_ok :
    sample_standard_deviation ([] : List ℝ) 0 = .ok 0 := by
  simp [sample_standard_deviation]

/-- C6 amended: there is no `InsufficientSampleSizeError`.  On the empty
sample the function returns `0`; on a one-element sample it fails with a
`ZeroDivisionError` (division by `n − 1 = 0` inside the loop); for `n ≥ 2`
with the sample's mean supplied it returns `√(Σ(xᵢ−mean)² / (n−1))`. -/
theorem sample_stdev_behavior :
    (∀ m : ℝ, sample_standard_deviation [] m = .ok 0) ∧
    (∀ x m : ℝ, sample_standard_deviation [x] m = .error .zeroDivision) ∧
    (∀ (l : List ℝ) (m : ℝ), 2 ≤ l.length →
      sample_standard_deviation l m = .ok (stdevSpec l m)) := by
  refine ⟨?_, ?_, ?_⟩
  · intro m; simp [sample_standard_deviation]
  · intro x m; simp [sample_standard_deviation]
  · intro l m h; exact stdev_ok l m (by omega)

/-- Witness for `sample_stdev_behavior` at concrete samples. -/
theorem sample_stdev_behavior_witness :
    sample_standard_deviation [(5 : ℝ)] 3 = .error .zeroDivision ∧
    2 ≤ ([(1 : ℝ), 3]).length ∧
    sample_standard_deviation [(1 : ℝ), 3] 2 = .ok (stdevSpec [(1 : ℝ), 3] 2) := by
  exact ⟨sample_stdev_behavior.2.1 5 3, by norm_num,
    sample_stdev_behavior.2.2 [(1 : ℝ), 3] 2 (by norm_num)⟩

/-! Claim C7: correlation on mismatched lengths and on perfectly linear
data. -/

/-- C7 counterexample: with `|xs| = 2 ≠ 3 = |ys|`, the correlation does not
fail with a `DimensionMismatchError` (no dimension check exists): it succeeds,
silently ignoring the trailing element of `ys`, and here returns `1`. -/
theorem correlation_length_mismatch_ok :
    pearsons_correlation_coefficient [(1 : ℝ), 2] [0, 2, 100] (3/2) 1 = .ok 1 := by
  rw [corr_eq _ _ _ _ (by norm_num)]
  have hx : sumSqDev ([(1 : ℝ), 2]).length [(1 : ℝ), 2] (3/2) = 1/2 := by
    norm_num [sumSqDev, List.range_succ, List.getD]
  have hy : sumSqDev ([(1 : ℝ), 2]).length [(0 : ℝ), 2, 100] 1 = 2 := by
    norm_num [sumSqDev, List.range_succ, List.getD]
  have hp : sumProdDev [(1 : ℝ), 2] [0, 2, 100] (3/2) 1 = 1 := by
    norm_num [sumProdDev, List.range_succ, List.getD]
  rw [hx, hy, hp]
  norm_num

/-- C7 amended: `pearsons_correlation_coefficient` performs no dimension
check: when `|ys| < |xs|` it fails with an `IndexError` (not a
`DimensionMismatchError`), and when `|xs| ≤ |ys|` it silently computes on
the first `|xs|` elements; for the perfectly linear `x = [1,2,3,4]`,
`y = [2,4,6,8]` with the correct means it returns exactly `1`. -/
theorem correlation_behavior :
    (∀ (xs ys : List ℝ) (mx my : ℝ), ys.length < xs.length →
      pearsons_correlation_coefficient xs ys mx my = .error .indexError) ∧
    mean_calculator [(1 : ℝ), 2, 3, 4] = .ok (5/2) ∧
    mean_calculator [(2 : ℝ), 4, 6, 8] = .ok 5 ∧
    pearsons_correlation_coefficient [(1 : ℝ), 2, 3, 4] [2, 4, 6, 8] (5/2) 5 = .ok 1 := by
  refine ⟨?_, ?_, ?_, ?_⟩
  · intro xs ys mx my h
    rw [pearsons_correlation_coefficient, if_pos h]
  · norm_num [mean_calculator]
  · norm_num [mean_calculator]
  · rw [corr_eq _ _ _ _ (by norm_num)]
    have hx : sumSqDev ([(1 : ℝ), 2, 3, 4]).length [(1 : ℝ), 2, 3, 4] (5/2) = 5 := by
      norm_num [sumSqDev, List.range_succ, List.getD]
    have hy : sumSqDev ([(1 : ℝ), 2, 3, 4]).length [(2 : ℝ), 4, 6, 8] 5 = 20 := by
      norm_num [sumSqDev, List.range_succ, List.getD]
    have hp : sumProdDev [(1 : ℝ), 2, 3, 4] [2, 4, 6, 8] (5/2) 5 = 10 := by
      norm_num [sumProdDev, List.range_succ, List.getD]
    have hsq : Real.sqrt ((5 : ℝ) * 20) = 10 := by
      rw [show ((5 : ℝ) * 20) = 10 ^ 2 by norm_num]
      exact Real.sqrt_sq (by norm_num)
    rw [hx, hy, hp, hsq]
    norm_num

/-- Witness for the index-error branch of `correlation_behavior`. -/
theorem correlation_behavior_witness :
    ([(7 : ℝ)]).length < ([(1 : ℝ), 2]).length ∧
    pearsons_correlation_coefficient [(1 : ℝ), 2] [(7 : ℝ)] 0 0 = .error .indexError := by
  exact ⟨by norm_num, correlation_behavior.1 [(1 : ℝ), 2] [(7 : ℝ)] 0 0 (by norm_num)⟩

/-! Claim C10: trailing elements of a longer `ys` are ignored. -/

/-- C10: when `1 ≤ |xs| < |ys|`, the correlation of `xs` and `ys` equals the
correlation of `xs` with the first `|xs|` elements of `ys`: the iteration is
driven by the length of `xs` only, so the trailing elements of `ys` are
silently ignored. -/
theorem correlation_ignores_trailing (xs ys : List ℝ) (mx my : ℝ)
    (h1 : 1 ≤ xs.length) (h2 : xs.length < ys.length) :
    pearsons_correlation_coefficient xs ys mx my =
      pearsons_correlation_coefficient xs (ys.take xs.length) mx my := by
  have hglen : ¬ ys.length < xs.length := by omega
  have htlen : (ys.take xs.length).length = xs.length := by
    rw [List.length_take]; omega
  have hg : ¬ (ys.take xs.length).length < xs.length := by omega
  have hprod : sumProdDev xs (ys.take xs.length) mx my = sumProdDev xs ys mx my := by
    rw [sumProdDev, sumProdDev]
    congr 1
    refine List.map_congr_left ?_
    intro i hi
    rw [getD_take ys xs.length i (List.mem_range.mp hi)]
  have hsq : sumSqDev xs.length (ys.take xs.length) my = sumSqDev xs.length ys my := by
    rw [sumSqDev, sumSqDev]
    congr 1
    refine List.map_congr_left ?_
    intro i hi
    rw [getD_take ys xs.length i (List.mem_range.mp hi)]
  rw [corr_eq xs ys mx my hglen, corr_eq xs (ys.take xs.length) mx my hg,
    hprod, hsq]

/-- Witness for `correlation_ignores_trailing` at a concrete input. -/
theorem correlation_ignores_trailing_witness :
    1 ≤ ([(1 : ℝ), 2]).length ∧
    pearsons_correlation_coefficient [(1 : ℝ), 2] [0, 2, 100] (3/2) 1 =
      pearsons_correlation_coefficient [(1 : ℝ), 2]
        ([(0 : ℝ), 2, 100].take ([(1 : ℝ), 2]).length) (3/2) 1 := by
  exact ⟨by norm_num,
    correlation_ignores_trailing [(1 : ℝ), 2] [0, 2, 100] (3/2) 1
      (by norm_num) (by norm_num)⟩

/-! Claim C1: the weak-correlation path of simple linear regression. -/

/-- C1 counterexample: on data with `|r| = 0 < 0.5`,
`simple_linear_regression` does not return an explicit Rejected outcome
carrying `r`: it returns the plain success pair `(0, 0)`, the very value of
a zero-slope, zero-intercept fit. -/
theorem slr_weak_data_returns_zero_pair :
    simple_linear_regression [(1 : ℝ), 2, 3] [1, -2, 1] = .ok (0, 0) := by
  have hm1 : mean_calculator [(1 : ℝ), 2, 3] = .ok 2 := by
    norm_num [mean_calculator]
  have hm2 : mean_calculator [(1 : ℝ), -2, 1] = .ok 0 := by
    norm_num [mean_calculator]
  have hcorr : pearsons_correlation_coefficient [(1 : ℝ), 2, 3] [1, -2, 1] 2 0 = .ok 0 := by
    rw [corr_eq _ _ _ _ (by norm_num)]
    have hx : sumSqDev ([(1 : ℝ), 2, 3]).length [(1 : ℝ), 2, 3] 2 = 2 := by
      norm_num [sumSqDev, List.range_succ, List.getD]
    have hy : sumSqDev ([(1 : ℝ), 2, 3]).length [(1 : ℝ), -2, 1] 0 = 6 := by
      norm_num [sumSqDev, List.range_succ, List.getD]
    have hp : sumProdDev [(1 : ℝ), 2, 3] [1, -2, 1] 2 0 = 0 := by
      norm_num [sumProdDev, List.range_succ, List.getD]
    have hb : Real.sqrt ((2 : ℝ) * 6) ≠ 0 :=
      (Real.sqrt_pos.mpr (by norm_num)).ne'
    rw [hx, hy, hp, if_neg hb, zero_div]
  simp only [simple_linear_regression, hm1, hm2, hcorr]
  norm_num

/-- C1 amended: whenever the computed correlation satisfies `|r| < 0.5`,
`simple_linear_regression` returns the success pair `(0, 0)` (after printing
a console message), i.e. a zero-slope, zero-intercept sentinel that is
indistinguishable from a genuine `Fitted{0,0}` result — not a Rejected
outcome carrying `r`. -/
theorem slr_weak_corr_zero_pair (xs ys : List ℝ) (mx my r : ℝ)
    (h1 : mean_calculator xs = .ok mx) (h2 : mean_calculator ys = .ok my)
    (h3 : pearsons_correlation_coefficient xs ys mx my = .ok r)
    (h4 : |r| < 1/2) :
    simple_linear_regression xs ys = .ok (0, 0) := by
  simp only [simple_linear_regression, h1, h2, h3]
  rw [if_pos (by rw [show (0.5 : ℝ) = 1/2 by norm_num]; exact h4)]

/-- Witness for `slr_weak_corr_zero_pair` at a concrete weakly-correlated
input. -/
theorem slr_weak_corr_zero_pair_witness :
    |(0 : ℝ)| < 1/2 ∧
    simple_linear_regression [(0 : ℝ), 2, 4] [1, -2, 1] = .ok (0, 0) := by
  have hm1 : mean_calculator [(0 : ℝ), 2, 4] = .ok 2 := by
    norm_num [mean_calculator]
  have hm2 : mean_calculator [(1 : ℝ), -2, 1] = .ok 0 := by
    norm_num [mean_calculator]
  have hcorr : pearsons_correlation_coefficient [(0 : ℝ), 2, 4] [1, -2, 1] 2 0 = .ok 0 := by
    rw [corr_eq _ _ _ _ (by norm_num)]
    have hx : sumSqDev ([(0 : ℝ), 2, 4]).length [(0 : ℝ), 2, 4] 2 = 8 := by
      norm_num [sumSqDev, List.range_succ, List.getD]
    have hy : sumSqDev ([(0 : ℝ), 2, 4]).length [(1 : ℝ), -2, 1] 0 = 6 := by
      norm_num [sumSqDev, List.range_succ, List.getD]
    have hp : sumProdDev [(0 : ℝ), 2, 4] [1, -2, 1] 2 0 = 0 := by
      norm_num [sumProdDev, List.range_succ, List.getD]
    have hb : Real.sqrt ((8 : ℝ) * 6) ≠ 0 :=
      (Real.sqrt_pos.mpr (by norm_num)).ne'
    rw [hx, hy, hp, if_neg hb, zero_div]
  exact ⟨by norm_num,
    slr_weak_corr_zero_pair [(0 : ℝ), 2, 4] [1, -2, 1] 2 0 0 hm1 hm2 hcorr
      (by norm_num)⟩

/-! Claim C9: the fitted branch of simple linear regression. -/

/-- C9: for equal-length samples with `n ≥ 2`, correlation `|r| ≥ 1/2` and
nonzero x-variance, `simple_linear_regression` returns the fitted pair with
slope `m = r·(σy/σx)` and intercept `b = ȳ − m·x̄`, where `σx`, `σy` are the
sample standard deviations `√(Σ(xᵢ−mean)²/(n−1))`. -/
theorem slr_fit (xs ys : List ℝ) (hlen : xs.length = ys.length)
    (hn : 2 ≤ xs.length) (hr : 1/2 ≤ |rSpec xs ys|)
    (hsxx : sumSqDev xs.length xs (meanSpec xs) ≠ 0) :
    simple_linear_regression xs ys =
      .ok (rSpec xs ys * (stdevSpec ys (meanSpec ys) / stdevSpec xs (meanSpec xs)),
        meanSpec ys -
          rSpec xs ys * (stdevSpec ys (meanSpec ys) / stdevSpec xs (meanSpec xs)) *
            meanSpec xs) := by
  have hxs : xs ≠ [] := by
    intro h; rw [h] at hn; simp at hn
  have hys : ys ≠ [] := by
    intro h; rw [h, List.length_nil] at hlen; omega
  have hm1 := mean_ok xs hxs
  have hm2 := mean_ok ys hys
  have hB : Real.sqrt (sumSqDev xs.length xs (meanSpec xs) *
      sumSqDev xs.length ys (meanSpec ys)) ≠ 0 := by
    intro h0
    rw [rSpec, h0, div_zero, abs_zero] at hr
    linarith
  have hcorr : pearsons_correlation_coefficient xs ys (meanSpec xs) (meanSpec ys) =
      .ok (rSpec xs ys) :=
    corr_ok xs ys (meanSpec xs) (meanSpec ys) (by omega) hB
  have hs1 : sample_standard_deviation xs (meanSpec xs) =
      .ok (stdevSpec xs (meanSpec xs)) := stdev_ok xs _ (by omega)
  have hs2 : sample_standard_deviation ys (meanSpec ys) =
      .ok (stdevSpec ys (meanSpec ys)) := stdev_ok ys _ (by omega)
  have hnotlt : ¬ |rSpec xs ys| < 0.5 := by
    rw [show (0.5 : ℝ) = 1/2 by norm_num]
    linarith
  have hσx : stdevSpec xs (meanSpec xs) ≠ 0 := by
    rw [stdevSpec]
    have hpos : 0 < sumSqDev xs.length xs (meanSpec xs) :=
      lt_of_le_of_ne (sumSqDev_nonneg _ _ _) (Ne.symm hsxx)
    have hden : 0 < (xs.length : ℝ) - 1 := by
      have : (2 : ℝ) ≤ xs.length := by exact_mod_cast hn
      linarith
    exact (Real.sqrt_pos.mpr (div_pos hpos hden)).ne'
  simp only [simple_linear_regression, hm1, hm2, hcorr, hs1, hs2]
  rw [if_neg hnotlt, if_neg hσx]

/-- Witness for `slr_fit` on the perfectly linear sample `x = [1,2,3]`,
`y = [2,4,6]` (where `r = 1`, `σx = 1`, `σy = 2`). -/
theorem slr_fit_witness :
    1/2 ≤ |rSpec [(1 : ℝ), 2, 3] [2, 4, 6]| ∧
    simple_linear_regression [(1 : ℝ), 2, 3] [2, 4, 6] =
      .ok (rSpec [(1 : ℝ), 2, 3] [2, 4, 6] *
        (stdevSpec [(2 : ℝ), 4, 6] (meanSpec [(2 : ℝ), 4, 6]) /
          stdevSpec [(1 : ℝ), 2, 3] (meanSpec [(1 : ℝ), 2, 3])),
        meanSpec [(2 : ℝ), 4, 6] -
          rSpec [(1 : ℝ), 2, 3] [2, 4, 6] *
            (stdevSpec [(2 : ℝ), 4, 6] (meanSpec [(2 : ℝ), 4, 6]) /
              stdevSpec [(1 : ℝ), 2, 3] (meanSpec [(1 : ℝ), 2, 3])) *
            meanSpec [(1 : ℝ), 2, 3]) := by
  have e1 : meanSpec [(1 : ℝ), 2, 3] = 2 := by norm_num [meanSpec]
  have e2 : meanSpec [(2 : ℝ), 4, 6] = 4 := by norm_num [meanSpec]
  have e3 : sumProdDev [(1 : ℝ), 2, 3] [2, 4, 6] 2 4 = 4 := by
    norm_num [sumProdDev, List.range_succ, List.getD]
  have e4 : sumSqDev ([(1 : ℝ), 2, 3]).length [(1 : ℝ), 2, 3] 2 = 2 := by
    norm_num [sumSqDev, List.range_succ, List.getD]
  have e5 : sumSqDev ([(1 : ℝ), 2, 3]).length [(2 : ℝ), 4, 6] 4 = 8 := by
    norm_num [sumSqDev, List.range_succ, List.getD]
  have e6 : Real.sqrt ((2 : ℝ) * 8) = 4 := by
    rw [show ((2 : ℝ) * 8) = 4 ^ 2 by norm_num]
    exact Real.sqrt_sq (by norm_num)
  have hrval : rSpec [(1 : ℝ), 2, 3] [2, 4, 6] = 1 := by
    rw [rSpec, e1, e2, e3, e4, e5, e6]
    norm_num
  have hr : 1/2 ≤ |rSpec [(1 : ℝ), 2, 3] [2, 4, 6]| := by
    rw [hrval]; norm_num
  have hsxx : sumSqDev ([(1 : ℝ), 2, 3]).length [(1 : ℝ), 2, 3]
      (meanSpec [(1 : ℝ), 2, 3]) ≠ 0 := by
    rw [e1, e4]; norm_num
  exact ⟨hr, slr_fit [(1 : ℝ), 2, 3] [2, 4, 6] rfl (by norm_num) hr hsxx⟩

end LinReg
